import Mathlib

/-!
Verification development for the ColQwen2.5 vision embedding server
(`src/vision/server.py`, PyTorch backend, and `src/vision/server_mlx.py`,
MLX backend): a JSON-RPC-over-stdio protocol loop with request dispatch,
embedding handlers guarded against NaN, and PDF extraction helpers.

The Python code is shallowly embedded:
* JSON/Python values are `PyVal` (dicts as ordered association fields,
  floats carrying an explicit NaN/Infinity/finite distinction, since the
  NaN-handling behaviour is the point of several properties).
* Exceptions are `Except Err`.
* External collaborators (the inference model and preprocessors, PIL image
  opening, PyMuPDF documents, the pytesseract OCR engine) are parameters of
  a model/environment record; their declared contract (one output row per
  batch input) appears only as an explicit hypothesis where a property
  needs it.
* `json.dumps` of a response is represented by the JSON value the emitted
  line encodes; Python's default encoder writes `NaN`/`Infinity` tokens for
  non-finite floats, so "the line contains a non-finite token" is modelled
  as "the encoded value contains a non-finite float".
* stdin is a list of lines, each already classified by the outcome of
  `line.strip()` / `json.loads(line)`: blank, malformed (parse error), or
  parsed to a value.
-/

/-- A Python float as observed on the inference path: either a finite value
or one of the non-finite IEEE values (NaN, +inf, -inf). -/
inductive PyFloat : Type where
  | val : ℚ → PyFloat
  | nan : PyFloat
  | inf : PyFloat
  | ninf : PyFloat
deriving DecidableEq, Repr

/-- `math.isnan`/`math.isinf` combined: is the float a finite number? -/
def PyFloat.isFinite : PyFloat → Bool
  | .val _ => true
  | _ => false

/-- `torch.isnan` on a single scalar. -/
def PyFloat.isNaN : PyFloat → Bool
  | .nan => true
  | _ => false

/-- Largest finite `float32`, the default replacement `torch.nan_to_num`
uses for `+inf` when only `nan=0.0` is passed. -/
def float32Max : ℚ := 340282346638528859811704183484516925440

/-- `torch.nan_to_num(x, nan=0.0)` on one scalar: NaN becomes `0.0`;
infinities become the extreme finite `float32` values (the torch default
when `posinf`/`neginf` are not given); finite values are unchanged. -/
def PyFloat.nanToNum : PyFloat → PyFloat
  | .nan => .val 0
  | .inf => .val float32Max
  | .ninf => .val (-float32Max)
  | .val q => .val q

mutual
/-- A Python value as it appears on the JSON-RPC wire: the result of
`json.loads` on a request line, or the argument to `json.dumps` for a
response line. -/
inductive PyVal : Type where
  | null : PyVal
  | boolean : Bool → PyVal
  | intVal : Int → PyVal
  | floatVal : PyFloat → PyVal
  | strVal : String → PyVal
  | listVal : PyList → PyVal
  | dictVal : PyFields → PyVal

/-- A Python list of values. -/
inductive PyList : Type where
  | nil : PyList
  | cons : PyVal → PyList → PyList

/-- The (ordered) key/value fields of a Python dict. -/
inductive PyFields : Type where
  | fnil : PyFields
  | fcons : String → PyVal → PyFields → PyFields
end

/-- Build a `PyList` from a Lean list. -/
def PyList.ofList : List PyVal → PyList
  | [] => .nil
  | v :: vs => .cons v (PyList.ofList vs)

/-- Build `PyFields` from a Lean association list. -/
def PyFields.ofList : List (String × PyVal) → PyFields
  | [] => .fnil
  | (k, v) :: fs => .fcons k v (PyFields.ofList fs)

/-- Python list literal. -/
def plist (xs : List PyVal) : PyVal := .listVal (PyList.ofList xs)

/-- Python dict literal. -/
def pdict (fs : List (String × PyVal)) : PyVal := .dictVal (PyFields.ofList fs)

/-- Python string literal. -/
def pstr (s : String) : PyVal := .strVal s

/-- Python int literal. -/
def pint (n : Int) : PyVal := .intVal n

/-- First value stored under `key`, if any (parsed Python dicts have
mutually distinct keys, so first-match lookup agrees with `dict.__getitem__`). -/
def PyFields.get? : PyFields → String → Option PyVal
  | .fnil, _ => none
  | .fcons k v fs, key => if k = key then some v else fs.get? key

/-- `d.get(key)`: the stored value, or `None` when the key is absent. -/
def pyDictGet (fs : PyFields) (key : String) : PyVal :=
  (fs.get? key).getD .null

mutual
/-- Does the value contain a non-finite float anywhere?  Python's default
`json.dumps` emits an (invalid-JSON) `NaN`/`Infinity` token exactly for
such values, and `json.dumps(obj, allow_nan=False)` raises `ValueError`
exactly for such values. -/
def PyVal.hasNonFinite : PyVal → Bool
  | .floatVal f => !f.isFinite
  | .listVal xs => xs.hasNonFinite
  | .dictVal fs => fs.hasNonFinite
  | _ => false

/-- `PyVal.hasNonFinite` over a Python list. -/
def PyList.hasNonFinite : PyList → Bool
  | .nil => false
  | .cons v vs => v.hasNonFinite || vs.hasNonFinite

/-- `PyVal.hasNonFinite` over dict fields. -/
def PyFields.hasNonFinite : PyFields → Bool
  | .fnil => false
  | .fcons _ v fs => v.hasNonFinite || fs.hasNonFinite
end

mutual
/-- The `sanitize` closure inside `safe_json_dumps`: non-finite floats
become `None`, dicts and lists are rebuilt recursively, everything else is
returned unchanged. -/
def PyVal.sanitize : PyVal → PyVal
  | .floatVal f => if f.isFinite then .floatVal f else .null
  | .listVal xs => .listVal xs.sanitize
  | .dictVal fs => .dictVal fs.sanitize
  | v => v

/-- `PyVal.sanitize` over a Python list. -/
def PyList.sanitize : PyList → PyList
  | .nil => .nil
  | .cons v vs => .cons v.sanitize vs.sanitize

/-- `PyVal.sanitize` over dict fields. -/
def PyFields.sanitize : PyFields → PyFields
  | .fnil => .fnil
  | .fcons k v fs => .fcons k v.sanitize fs.sanitize
end


/-- Python exceptions that arise on the request-handling paths. -/
inductive Err : Type where
  | keyError : String → Err
  | typeError : String → Err
  | attributeError : String → Err
  | indexError : Err
  | ioError : String → Err
deriving DecidableEq, Repr

/-- `str(e)`, the human-readable message placed in an error response. -/
def Err.message : Err → String
  | .keyError k => k
  | .typeError s => s
  | .attributeError s => s
  | .indexError => "list index out of range"
  | .ioError s => s

/-- One token/patch position of an embedding: a vector of floats. -/
abbrev Vec := List PyFloat

/-- A multi-vector embedding for one input (one image page or one query). -/
abbrev MultiVec := List Vec

/-- A batch of multi-vector embeddings, one row per batch input: the shape
of the model's forward-pass output tensor. -/
abbrev Tensor := List MultiVec

/-- `torch.isnan(embeddings[i]).any()` for one row. -/
def multiVecHasNaN (m : MultiVec) : Bool := m.any (fun v => v.any PyFloat.isNaN)

/-- `torch.isnan(embeddings).any()` over the whole batch. -/
def tensorHasNaN (t : Tensor) : Bool := t.any multiVecHasNaN

/-- `torch.nan_to_num(embeddings, nan=0.0)` over the whole batch. -/
def nanToNumTensor (t : Tensor) : Tensor :=
  t.map (fun row => row.map (fun v => v.map PyFloat.nanToNum))

/-- One page of an opened PyMuPDF document, at this spec's boundary to the
external library: the string `page.get_text()` returns, and the outcome of
the OCR pipeline (`page.get_pixmap(dpi=300)`, `Image.frombytes`,
`pytesseract.image_to_string`) on that page — a string, or a raised
exception. -/
structure PdfPage where
  rawText : String
  ocr : Except Err String

/-- The external collaborators of `server.py` (PyTorch backend), fixed at
process start: device/dtype strings chosen by `init_model`, the opaque
inference function (attempt-indexed, because the NaN guard re-invokes the
identical forward pass and the accelerator may return a different answer),
`Image.open` per path, `fitz.open` per PDF path, and whether `import
pytesseract` succeeded. -/
structure TorchModel where
  deviceStr : String
  dtypeStr : String
  imageOut : List String → Nat → Tensor
  queryOut : List String → Tensor
  openImage : String → Except Err Unit
  openPdf : String → Except Err (List PdfPage)
  hasTesseract : Bool

/-- The `Image.open(p).convert("RGB")` loop at the head of `embed_images`:
fails with the first path that cannot be opened. -/
def openImages (m : TorchModel) : List String → Except Err Unit
  | [] => .ok ()
  | p :: ps => do
      _ ← m.openImage p
      openImages m ps

/-- The NaN-guard portion of `embed_images` (`server.py` lines 139-149):
run the forward pass; if any output value is NaN, run the identical call a
second time; if NaN persists, replace NaN with `0.0` via
`torch.nan_to_num`. -/
def embedImagesTensor (m : TorchModel) (paths : List String) : Tensor :=
  let e0 := m.imageOut paths 0
  if tensorHasNaN e0 then
    let e1 := m.imageOut paths 1
    if tensorHasNaN e1 then nanToNumTensor e1 else e1
  else e0

/-- The result-building loop at the end of `embed_images`: for each batch
row, append `embeddings[i].tolist()` to `results` and its length to
`num_vectors`. -/
def resultsAndCounts : Tensor → List MultiVec × List Nat
  | [] => ([], [])
  | row :: rest =>
      let rc := resultsAndCounts rest
      (row :: rc.1, row.length :: rc.2)

/-- `embeddings[i].tolist()` for one row, as the JSON value it becomes. -/
def multiVecPy (mv : MultiVec) : PyVal :=
  plist (mv.map (fun v => plist (v.map PyVal.floatVal)))

/-- The response object `{"embeddings": results, "num_vectors":
num_vectors}` built from the guarded forward-pass output. -/
def imagesResultPy (t : Tensor) : PyVal :=
  let rc := resultsAndCounts t
  pdict [("embeddings", plist (rc.1.map multiVecPy)),
         ("num_vectors", plist (rc.2.map (fun n => pint n)))]

/-- `server.py` `embed_images(paths)`: open every image, run the
NaN-guarded forward pass, and return
`{"embeddings": results, "num_vectors": num_vectors}`. -/
def embed_images (m : TorchModel) (paths : List String) : Except Err PyVal := do
  _ ← openImages m paths
  pure (imagesResultPy (embedImagesTensor m paths))

/-- `server.py` `embed_queries(texts)`: a single unguarded forward pass;
returns `{"embeddings": results}`.  (Unlike `embed_images`, there is no
NaN detection, no retry and no zero-fill on this path.) -/
def embed_queries (m : TorchModel) (texts : List String) : PyVal :=
  pdict [("embeddings", plist ((m.queryOut texts).map multiVecPy))]

/-- Zero-pad a page index to four digits, as in `f"page_{page_num:04d}"`. -/
def pad4 (n : Nat) : String :=
  let s := toString n
  if s.length ≥ 4 then s else String.mk (List.replicate (4 - s.length) '0') ++ s

/-- `server.py` `extract_pages(pdf_path, output_dir)`: open the PDF, render
each page (a pure side effect on disk, outside this model) and return the
deterministic output filenames in page order plus the page count. -/
def extract_pages (m : TorchModel) (pdfPath outputDir : String) : Except Err PyVal := do
  let pages ← m.openPdf pdfPath
  let paths := (List.range pages.length).map
    (fun i => outputDir ++ "/page_" ++ pad4 i ++ ".png")
  pure (pdict [("paths", plist (paths.map pstr)),
               ("page_count", pint pages.length)])

/-- `str.strip()` with no argument: drop leading and trailing whitespace. -/
def pyStrip (s : String) : String :=
  String.mk (((s.data.dropWhile Char.isWhitespace).reverse.dropWhile
    Char.isWhitespace).reverse)

/-- One per-page record produced by `extract_text`. -/
structure PageRec where
  pageNumber : Nat
  text : String
  method : String
deriving DecidableEq, Repr

/-- The per-page body of the `extract_text` loop: native text first
(`page.get_text().strip()`, method `"pymupdf"`); if it is empty and
pytesseract is importable, attempt OCR — success records the stripped OCR
output with method `"tesseract"`, a raised exception records the (empty)
native text with method `"ocr_failed"` instead of propagating. -/
def pageRecord (hasT : Bool) (n : Nat) (pg : PdfPage) : PageRec :=
  let text := pyStrip pg.rawText
  if (text == "") && hasT then
    match pg.ocr with
    | .ok t => ⟨n, pyStrip t, "tesseract"⟩
    | .error _ => ⟨n, text, "ocr_failed"⟩
  else
    ⟨n, text, "pymupdf"⟩

/-- The `for page_num in range(len(doc))` loop of `extract_text`, started
at page index `n`. -/
def extractRecordsFrom (hasT : Bool) : Nat → List PdfPage → List PageRec
  | _, [] => []
  | n, pg :: rest => pageRecord hasT n pg :: extractRecordsFrom hasT (n + 1) rest

/-- A `PageRec` as the JSON object appended to the `pages` list. -/
def pageRecPy (r : PageRec) : PyVal :=
  pdict [("page_number", pint r.pageNumber), ("text", pstr r.text),
         ("method", pstr r.method)]

/-- `server.py` `extract_text(pdf_path)`: open the PDF and build the
per-page records; returns `{"pages": [...], "has_tesseract": bool}`. -/
def extract_text (m : TorchModel) (pdfPath : String) : Except Err PyVal := do
  let pages ← m.openPdf pdfPath
  let recs := extractRecordsFrom m.hasTesseract 0 pages
  pure (pdict [("pages", plist (recs.map pageRecPy)),
               ("has_tesseract", .boolean m.hasTesseract)])

/-- The model identifier constant of `server.py`. -/
def MODEL_ID : String := "tsystems/colqwen2.5-3b-multilingual-v1.0-merged"

/-- A success response: `{"id": req_id, "result": result}`. -/
def respOk (reqId result : PyVal) : PyVal :=
  pdict [("id", reqId), ("result", result)]

/-- An error response: `{"id": req_id, "error": msg}`. -/
def respErr (reqId : PyVal) (msg : String) : PyVal :=
  pdict [("id", reqId), ("error", pstr msg)]

/-- `v.get(key)` with no default: dict lookup returning `None` when the key
is absent; any non-dict receiver raises `AttributeError`. -/
def pyGet (v : PyVal) (key : String) : Except Err PyVal :=
  match v with
  | .dictVal fs => .ok (pyDictGet fs key)
  | _ => .error (.attributeError "object has no attribute get")

/-- `v.get(key, dflt)`: as `pyGet`, but a supplied default replaces `None`
for an absent key (a stored `None` is still returned as-is). -/
def pyGetD (v : PyVal) (key : String) (dflt : PyVal) : Except Err PyVal :=
  match v with
  | .dictVal fs => .ok ((fs.get? key).getD dflt)
  | _ => .error (.attributeError "object has no attribute get")

/-- `v[key]` subscription: `KeyError` when a dict lacks the key,
`TypeError` when the receiver is not a dict. -/
def pySubscript (v : PyVal) (key : String) : Except Err PyVal :=
  match v with
  | .dictVal fs =>
      match fs.get? key with
      | some x => .ok x
      | none => .error (.keyError key)
  | _ => .error (.typeError "object is not subscriptable")

/-- Coerce a parameter to a string; the external consumers
(tokenizer, `fitz.open`, `os.makedirs`) raise `TypeError` on anything
else. -/
def pyAsStr (v : PyVal) : Except Err String :=
  match v with
  | .strVal s => .ok s
  | _ => .error (.typeError "expected a string")

/-- Coerce the elements of a Python list to strings
(`Image.open`/the tokenizer raise `TypeError` on non-string entries). -/
def pyStrItems : PyList → Except Err (List String)
  | .nil => .ok []
  | .cons (.strVal s) rest => do
      let ss ← pyStrItems rest
      .ok (s :: ss)
  | .cons _ _ => .error (.typeError "expected a string")

/-- Coerce a parameter to a list of strings; iterating a non-list or
opening a non-string path raises `TypeError`. -/
def pyAsStrList (v : PyVal) : Except Err (List String) :=
  match v with
  | .listVal xs => pyStrItems xs
  | _ => .error (.typeError "expected a list of strings")

/-- The `health` handler's result object in `server.py`. -/
def healthResult (m : TorchModel) : PyVal :=
  pdict [("status", pstr "ok"), ("model", pstr MODEL_ID),
         ("device", pstr m.deviceStr), ("dtype", pstr m.dtypeStr)]

/-- The `embed_query` branch of `handle_request`:
`embed_queries([params["text"]])` followed by
`{"embedding": result["embeddings"][0]}` — the index raises `IndexError`
when the batch result is empty. -/
def embedQueryResult (m : TorchModel) (text : String) : Except Err PyVal :=
  match m.queryOut [text] with
  | [] => .error .indexError
  | e :: _ => .ok (pdict [("embedding", multiVecPy e)])

/-- The f-string in the unknown-method error response. -/
def unknownMethodMsg : PyVal → String
  | .strVal s => "Unknown method: " ++ s
  | _ => "Unknown method"

/-- The shared tail of every fallible handler branch: compute the result,
then return `{"id": req_id, "result": result}` (a raised exception
propagates past the wrapping). -/
def withId (reqId : PyVal) (body : Except Err PyVal) : Except Err PyVal :=
  body.map (fun r => respOk reqId r)

/-- The `if method == ... / elif ... / else` dispatch chain of
`handle_request` in `server.py`, after `method`, `params` and `req_id`
have been read off the request.  Metrics calls (`EMBED_REQUESTS`,
`PAGES_PROCESSED`, `EMBED_DURATION`) are pure side-channel counters with
no effect on the response and are not modelled.  Note
`PAGES_PROCESSED.inc(len(params["paths"]))` subscripts `params` before
`embed_images` runs, so a missing `paths` key raises `KeyError` either
way. -/
def dispatch (m : TorchModel) (method params reqId : PyVal) : Except Err PyVal :=
  match method with
  | .strVal s =>
      if s = "health" then .ok (respOk reqId (healthResult m))
      else if s = "embed_images" then
        withId reqId (do
          let pv ← pySubscript params "paths"
          let paths ← pyAsStrList pv
          embed_images m paths)
      else if s = "embed_query" then
        withId reqId (do
          let tv ← pySubscript params "text"
          let t ← pyAsStr tv
          embedQueryResult m t)
      else if s = "embed_queries" then
        withId reqId (do
          let tv ← pySubscript params "texts"
          let ts ← pyAsStrList tv
          pure (embed_queries m ts))
      else if s = "extract_pages" then
        withId reqId (do
          let pv ← pySubscript params "pdf_path"
          let p ← pyAsStr pv
          let ov ← pySubscript params "output_dir"
          let o ← pyAsStr ov
          extract_pages m p o)
      else if s = "extract_text" then
        withId reqId (do
          let pv ← pySubscript params "pdf_path"
          let p ← pyAsStr pv
          extract_text m p)
      else if s = "shutdown" then
        .ok (respOk reqId (pdict [("status", pstr "shutting_down")]))
      else .ok (respErr reqId (unknownMethodMsg method))
  | _ => .ok (respErr reqId (unknownMethodMsg method))

/-- `server.py` `handle_request(req)`: read `method`, `params` (defaulting
to `{}`) and `id` off the request with `.get`, then dispatch.  A raised
exception anywhere inside is the `Except.error` case, caught by the caller
in `main`. -/
def handle_request (m : TorchModel) (req : PyVal) : Except Err PyVal := do
  let method ← pyGet req "method"
  let params ← pyGetD req "params" (pdict [])
  let reqId ← pyGet req "id"
  dispatch m method params reqId

/-- `safe_json_dumps(obj)`, as the JSON value the emitted line encodes:
`json.dumps(obj, allow_nan=False)` succeeds and encodes `obj` itself
exactly when `obj` has no non-finite float; otherwise it raises
`ValueError` and the fallback encodes `sanitize(obj)`. -/
def safe_json_dumps (v : PyVal) : PyVal :=
  if v.hasNonFinite then v.sanitize else v

/-- One line of stdin as seen by the loop body, classified by
`line.strip()` and `json.loads(line)`: blank (skipped), malformed (parse
error raised), or parsed to a value. -/
inductive LineContent : Type where
  | blank : LineContent
  | malformed : LineContent
  | parsed : PyVal → LineContent

/-- Outcome of one iteration of the `for line in sys.stdin` body:
`next written reqBinding` continues the loop after writing `written`
(if any) with the local variable `req` now holding `reqBinding`;
`halt written` writes and then `break`s (shutdown);
`crash` is an exception escaping the `except` handler itself —
the process terminates with no response written. -/
inductive StepRes : Type where
  | next : Option PyVal → Option PyVal → StepRes
  | halt : PyVal → StepRes
  | crash : StepRes

/-- `req.get("id") if isinstance(req, dict) else None` — the best-effort
id recovery in the `except` block of `main`. -/
def exceptId : PyVal → PyVal
  | .dictVal fs => pyDictGet fs "id"
  | _ => .null

/-- `req.get("method") == "shutdown"`. -/
def isShutdownVal : PyVal → Bool
  | .strVal s => s == "shutdown"
  | _ => false

/-- `str(e)` for the `json.JSONDecodeError` raised on a malformed line. -/
def jsonParseMsg : String := "Expecting value: line 1 column 1 (char 0)"

/-- One iteration of the read loop in `main` (`server.py` lines 312-334),
before serialization: which response object (if any) the iteration
produces. `reqBinding` is the current value of the local variable `req`:
`none` before any line has parsed successfully (referencing it in the
`except` block then raises `UnboundLocalError`, which the
`except Exception` clause — already being executed — does not catch, so
the process crashes), and stale (the previous line's value) when a later
line fails to parse. -/
def stepCore (handle : PyVal → Except Err PyVal)
    (reqBinding : Option PyVal) : LineContent → StepRes
  | .blank => .next none reqBinding
  | .malformed =>
      match reqBinding with
      | none => .crash
      | some r => .next (some (respErr (exceptId r) jsonParseMsg)) reqBinding
  | .parsed v =>
      match pyGet v "method" with
      | .error e => .next (some (respErr (exceptId v) e.message)) (some v)
      | .ok mth =>
          if isShutdownVal mth then
            match handle v with
            | .ok resp => .halt resp
            | .error e => .next (some (respErr (exceptId v) e.message)) (some v)
          else
            match handle v with
            | .ok resp => .next (some resp) (some v)
            | .error e => .next (some (respErr (exceptId v) e.message)) (some v)

/-- Serialize the iteration's response (if any) for the stdout line:
every written line passes through the serializer exactly once. -/
def applyWrite (write : PyVal → PyVal) : StepRes → StepRes
  | .next none rb => .next none rb
  | .next (some o) rb => .next (some (write o)) rb
  | .halt o => .halt (write o)
  | .crash => .crash

/-- One full iteration of the read loop, parameterised by the handler and
by the serializer used for the output line (`safe_json_dumps` in
`server.py`, plain `json.dumps` in `server_mlx.py`). -/
def stepLine (handle : PyVal → Except Err PyVal) (write : PyVal → PyVal)
    (reqBinding : Option PyVal) (l : LineContent) : StepRes :=
  applyWrite write (stepCore handle reqBinding l)

/-- How a run of the read loop ended: stdin exhausted, shutdown `break`,
or an uncaught exception. -/
inductive TermKind : Type where
  | eof : TermKind
  | shutdown : TermKind
  | crash : TermKind
deriving DecidableEq, Repr

/-- A finished run of the read loop: the response lines written to stdout,
in order, and how the loop ended. -/
structure RunOut where
  outs : List PyVal
  term : TermKind

/-- The `for line in sys.stdin` loop of `main`, over a (finite prefix of)
stdin. -/
def runLoop (handle : PyVal → Except Err PyVal) (write : PyVal → PyVal) :
    Option PyVal → List LineContent → RunOut
  | _, [] => ⟨[], .eof⟩
  | rb, l :: ls =>
      match stepLine handle write rb l with
      | .crash => ⟨[], .crash⟩
      | .halt o => ⟨[o], .shutdown⟩
      | .next none rb' => runLoop handle write rb' ls
      | .next (some o) rb' =>
          let r := runLoop handle write rb' ls
          ⟨o :: r.outs, r.term⟩

/-- The read loop of `server.py`: responses serialized through
`safe_json_dumps`. -/
def runServer (m : TorchModel) : Option PyVal → List LineContent → RunOut :=
  runLoop (handle_request m) safe_json_dumps

/-- The model identifier constant of `server_mlx.py`. -/
def MODEL_ID_MLX : String := "qnguyen3/colqwen2.5-v0.2-mlx"

/-- The external collaborators of `server_mlx.py` (MLX backend).  Its
`embed_images`/`embed_queries` run one forward pass per input and take
row 0 of each single-input batch, so the boundary functions return one
multi-vector embedding per input; there is no NaN guard and no retry on
this backend. -/
structure MlxModel where
  queryRow : String → MultiVec
  imageRow : String → MultiVec
  openImage : String → Except Err Unit
  openPdf : String → Except Err (List PdfPage)
  hasTesseract : Bool

/-- The per-path loop of `server_mlx.py` `embed_images`: open the image,
run the forward pass, keep row 0; the first failing path propagates. -/
def mlxImageRows (m : MlxModel) : List String → Except Err (List MultiVec)
  | [] => .ok []
  | p :: ps => do
      _ ← m.openImage p
      let rest ← mlxImageRows m ps
      .ok (m.imageRow p :: rest)

/-- `server_mlx.py` `embed_images(paths)`. -/
def mlx_embed_images (m : MlxModel) (paths : List String) : Except Err PyVal := do
  let rows ← mlxImageRows m paths
  pure (pdict [("embeddings", plist (rows.map multiVecPy)),
               ("num_vectors", plist (rows.map (fun r => pint r.length)))])

/-- `server_mlx.py` `embed_queries(texts)`: one unguarded forward pass per
text. -/
def mlx_embed_queries (m : MlxModel) (texts : List String) : PyVal :=
  pdict [("embeddings", plist ((texts.map m.queryRow).map multiVecPy))]

/-- The `health` handler's result object in `server_mlx.py`. -/
def mlxHealthResult : PyVal :=
  pdict [("status", pstr "ok"), ("model", pstr MODEL_ID_MLX),
         ("device", pstr "gpu"), ("dtype", pstr "float16"),
         ("backend", pstr "mlx")]

/-- `server_mlx.py` `extract_pages` — textually identical to the PyTorch
server's, over the MLX environment record. -/
def mlx_extract_pages (m : MlxModel) (pdfPath outputDir : String) : Except Err PyVal := do
  let pages ← m.openPdf pdfPath
  let paths := (List.range pages.length).map
    (fun i => outputDir ++ "/page_" ++ pad4 i ++ ".png")
  pure (pdict [("paths", plist (paths.map pstr)),
               ("page_count", pint pages.length)])

/-- `server_mlx.py` `extract_text` — textually identical to the PyTorch
server's, over the MLX environment record. -/
def mlx_extract_text (m : MlxModel) (pdfPath : String) : Except Err PyVal := do
  let pages ← m.openPdf pdfPath
  let recs := extractRecordsFrom m.hasTesseract 0 pages
  pure (pdict [("pages", plist (recs.map pageRecPy)),
               ("has_tesseract", .boolean m.hasTesseract)])

/-- The dispatch chain of `handle_request` in `server_mlx.py`.  The
`embed_query` branch is `embed_queries([params["text"]])` followed by
`result["embeddings"][0]`; the singleton batch makes the index total. -/
def mlxDispatch (m : MlxModel) (method params reqId : PyVal) : Except Err PyVal :=
  match method with
  | .strVal s =>
      if s = "health" then .ok (respOk reqId mlxHealthResult)
      else if s = "embed_images" then
        withId reqId (do
          let pv ← pySubscript params "paths"
          let paths ← pyAsStrList pv
          mlx_embed_images m paths)
      else if s = "embed_query" then
        withId reqId (do
          let tv ← pySubscript params "text"
          let t ← pyAsStr tv
          pure (pdict [("embedding", multiVecPy (m.queryRow t))]))
      else if s = "embed_queries" then
        withId reqId (do
          let tv ← pySubscript params "texts"
          let ts ← pyAsStrList tv
          pure (mlx_embed_queries m ts))
      else if s = "extract_pages" then
        withId reqId (do
          let pv ← pySubscript params "pdf_path"
          let p ← pyAsStr pv
          let ov ← pySubscript params "output_dir"
          let o ← pyAsStr ov
          mlx_extract_pages m p o)
      else if s = "extract_text" then
        withId reqId (do
          let pv ← pySubscript params "pdf_path"
          let p ← pyAsStr pv
          mlx_extract_text m p)
      else if s = "shutdown" then
        .ok (respOk reqId (pdict [("status", pstr "shutting_down")]))
      else .ok (respErr reqId (unknownMethodMsg method))
  | _ => .ok (respErr reqId (unknownMethodMsg method))

/-- `server_mlx.py` `handle_request(req)`. -/
def mlx_handle_request (m : MlxModel) (req : PyVal) : Except Err PyVal := do
  let method ← pyGet req "method"
  let params ← pyGetD req "params" (pdict [])
  let reqId ← pyGet req "id"
  mlxDispatch m method params reqId

/-- The read loop of `server_mlx.py`: it is the same loop text as
`server.py`, but responses are serialized with plain `json.dumps(response)`
— no `allow_nan=False`, no sanitize fallback — so the emitted line encodes
the response value unchanged, non-finite floats included. -/
def runServerMlx (m : MlxModel) : Option PyVal → List LineContent → RunOut :=
  runLoop (mlx_handle_request m) (fun v => v)

/-- A single zeroed one-vector embedding row, for concrete instantiations. -/
def zeroRow : MultiVec := [[PyFloat.val 0]]

/-- A concrete, well-behaved PyTorch-backend environment: every forward
pass returns one zeroed row per input (the declared batch contract), every
image opens, every PDF opens empty, pytesseract is absent. -/
def sampleModel : TorchModel where
  deviceStr := "mps"
  dtypeStr := "torch.float32"
  imageOut := fun ps _ => ps.map (fun _ => zeroRow)
  queryOut := fun ts => ts.map (fun _ => zeroRow)
  openImage := fun _ => .ok ()
  openPdf := fun _ => .ok []
  hasTesseract := false

/-- A PyTorch-backend environment whose query forward pass returns NaN
(the numerical-instability scenario on the unguarded query path). -/
def nanQueryModel : TorchModel :=
  { sampleModel with queryOut := fun ts => ts.map (fun _ => [[PyFloat.nan]]) }

/-- A PyTorch-backend environment whose image forward pass returns NaN on
every attempt (the persistent-instability scenario for the NaN guard). -/
def nanImageModel : TorchModel :=
  { sampleModel with imageOut := fun ps _ => ps.map (fun _ => [[PyFloat.nan]]) }

/-- A concrete MLX-backend environment whose query forward pass returns
NaN. -/
def nanMlxModel : MlxModel where
  queryRow := fun _ => [[PyFloat.nan]]
  imageRow := fun _ => zeroRow
  openImage := fun _ => .ok ()
  openPdf := fun _ => .ok []
  hasTesseract := false

/-- Does a key occur among the fields? -/
def PyFields.hasKey : PyFields → String → Bool
  | .fnil, _ => false
  | .fcons k _ fs, key => k == key || fs.hasKey key

mutual
/-- The value is the image of a well-formed JSON text under `json.loads`:
no non-finite floats (`NaN`/`Infinity` are accepted by Python's parser but
are not valid JSON), and distinct keys in every object (Python's parser
collapses duplicates, so a parsed dict never carries two fields with one
key). -/
def PyVal.wellFormedJson : PyVal → Bool
  | .floatVal f => f.isFinite
  | .listVal xs => xs.wellFormedJson
  | .dictVal fs => fs.wellFormedJson
  | _ => true

/-- `PyVal.wellFormedJson` over a Python list. -/
def PyList.wellFormedJson : PyList → Bool
  | .nil => true
  | .cons v vs => v.wellFormedJson && vs.wellFormedJson

/-- `PyVal.wellFormedJson` over dict fields. -/
def PyFields.wellFormedJson : PyFields → Bool
  | .fnil => true
  | .fcons k v fs => !fs.hasKey k && v.wellFormedJson && fs.wellFormedJson
end

/-- `isinstance(v, dict)`. -/
def PyVal.isDict : PyVal → Bool
  | .dictVal _ => true
  | _ => false

/-- The response lines one loop iteration writes (zero or one). -/
def stepWritten : StepRes → List PyVal
  | .next none _ => []
  | .next (some o) _ => [o]
  | .halt o => [o]
  | .crash => []

/-- Fields of the request `{"id": 7, "method": "health"}`. -/
def healthFields7 : PyFields :=
  PyFields.ofList [("id", pint 7), ("method", pstr "health")]

/-- The request `{"id": 7, "method": "health"}`. -/
def healthReq7 : PyVal := .dictVal healthFields7

/-- The request `{"id": 1, "method": "embed_query", "params": {"text": "q"}}`. -/
def embedQueryReq1 : PyVal :=
  pdict [("id", pint 1), ("method", pstr "embed_query"),
         ("params", pdict [("text", pstr "q")])]

/-- An `embed_images` request whose params lack the `paths` key. -/
def missingPathsReq (idv : PyVal) : PyVal :=
  pdict [("id", idv), ("method", pstr "embed_images"), ("params", pdict [])]

/-- An `embed_images` request whose `paths` value is the empty list. -/
def emptyPathsReq (idv : PyVal) : PyVal :=
  pdict [("id", idv), ("method", pstr "embed_images"),
         ("params", pdict [("paths", plist [])])]

/-- Fields of the request `{"id": 3, "method": "shutdown"}`. -/
def shutdownFields3 : PyFields :=
  PyFields.ofList [("id", pint 3), ("method", pstr "shutdown")]

/-- A concrete two-page PDF: page 0 has embedded text, page 1 is image-only
and its OCR pipeline raises. -/
def pdfPages : List PdfPage :=
  [⟨"hello", .ok "x"⟩, ⟨"", .error .indexError⟩]

/-- A PyTorch-backend environment with pytesseract importable and a PDF
that opens to `pdfPages`. -/
def pdfModel : TorchModel :=
  { sampleModel with
      hasTesseract := true,
      openPdf := fun _ => .ok pdfPages }
mutual
theorem PyVal.sanitizeVal_clean : ∀ v : PyVal, v.sanitize.hasNonFinite = false
  | .null => rfl
  | .boolean _ => rfl
  | .intVal _ => rfl
  | .strVal _ => rfl
  | .floatVal f => by cases f <;> rfl
  | .listVal xs => by
      simp only [PyVal.sanitize, PyVal.hasNonFinite]
      exact PyList.sanitizeList_clean xs
  | .dictVal fs => by
      simp only [PyVal.sanitize, PyVal.hasNonFinite]
      exact PyFields.sanitizeFields_clean fs

theorem PyList.sanitizeList_clean : ∀ xs : PyList, xs.sanitize.hasNonFinite = false
  | .nil => rfl
  | .cons v vs => by
      simp only [PyList.sanitize, PyList.hasNonFinite, Bool.or_eq_false_iff]
      exact ⟨PyVal.sanitizeVal_clean v, PyList.sanitizeList_clean vs⟩

theorem PyFields.sanitizeFields_clean : ∀ fs : PyFields, fs.sanitize.hasNonFinite = false
  | .fnil => rfl
  | .fcons _ v fs => by
      simp only [PyFields.sanitize, PyFields.hasNonFinite, Bool.or_eq_false_iff]
      exact ⟨PyVal.sanitizeVal_clean v, PyFields.sanitizeFields_clean fs⟩
end

mutual
theorem PyVal.sanitizeVal_of_clean : ∀ v : PyVal, v.hasNonFinite = false → v.sanitize = v
  | .null, _ => rfl
  | .boolean _, _ => rfl
  | .intVal _, _ => rfl
  | .strVal _, _ => rfl
  | .floatVal f, h => by
      cases f with
      | val q => rfl
      | nan => simp [PyVal.hasNonFinite, PyFloat.isFinite] at h
      | inf => simp [PyVal.hasNonFinite, PyFloat.isFinite] at h
      | ninf => simp [PyVal.hasNonFinite, PyFloat.isFinite] at h
  | .listVal xs, h => by
      simp only [PyVal.hasNonFinite] at h
      simp only [PyVal.sanitize, PyList.sanitizeList_of_clean xs h]
  | .dictVal fs, h => by
      simp only [PyVal.hasNonFinite] at h
      simp only [PyVal.sanitize, PyFields.sanitizeFields_of_clean fs h]

theorem PyList.sanitizeList_of_clean : ∀ xs : PyList, xs.hasNonFinite = false → xs.sanitize = xs
  | .nil, _ => rfl
  | .cons v vs, h => by
      simp only [PyList.hasNonFinite, Bool.or_eq_false_iff] at h
      simp only [PyList.sanitize, PyVal.sanitizeVal_of_clean v h.1,
        PyList.sanitizeList_of_clean vs h.2]

theorem PyFields.sanitizeFields_of_clean : ∀ fs : PyFields, fs.hasNonFinite = false → fs.sanitize = fs
  | .fnil, _ => rfl
  | .fcons k v fs, h => by
      simp only [PyFields.hasNonFinite, Bool.or_eq_false_iff] at h
      simp only [PyFields.sanitize, PyVal.sanitizeVal_of_clean v h.1,
        PyFields.sanitizeFields_of_clean fs h.2]
end

theorem safe_json_dumps_clean (v : PyVal) :
    (safe_json_dumps v).hasNonFinite = false := by
  unfold safe_json_dumps
  split
  · exact PyVal.sanitizeVal_clean v
  · next h => simpa using h

theorem safe_json_dumps_of_clean (v : PyVal) (h : v.hasNonFinite = false) :
    safe_json_dumps v = v := by
  unfold safe_json_dumps
  simp [h]

theorem nanToNum_isNaN (f : PyFloat) : f.nanToNum.isNaN = false := by
  cases f <;> rfl

theorem nanToNumTensor_noNaN (t : Tensor) :
    tensorHasNaN (nanToNumTensor t) = false := by
  simp [tensorHasNaN, nanToNumTensor, multiVecHasNaN, List.any_map,
    Function.comp_def, nanToNum_isNaN]

theorem resultsAndCounts_fst : ∀ t : Tensor, (resultsAndCounts t).1 = t
  | [] => rfl
  | row :: rest => by
      simp [resultsAndCounts, resultsAndCounts_fst rest]

theorem resultsAndCounts_snd : ∀ t : Tensor,
    (resultsAndCounts t).2 = t.map List.length
  | [] => rfl
  | row :: rest => by
      simp [resultsAndCounts, resultsAndCounts_snd rest]

mutual
theorem PyVal.wellFormedJsonVal_clean :
    ∀ v : PyVal, v.wellFormedJson = true → v.hasNonFinite = false
  | .null, _ => rfl
  | .boolean _, _ => rfl
  | .intVal _, _ => rfl
  | .strVal _, _ => rfl
  | .floatVal f, h => by
      simp only [PyVal.wellFormedJson] at h
      simp [PyVal.hasNonFinite, h]
  | .listVal xs, h => PyList.wellFormedJsonList_clean xs h
  | .dictVal fs, h => PyFields.wellFormedJsonFields_clean fs h

theorem PyList.wellFormedJsonList_clean :
    ∀ xs : PyList, xs.wellFormedJson = true → xs.hasNonFinite = false
  | .nil, _ => rfl
  | .cons v vs, h => by
      simp only [PyList.wellFormedJson, Bool.and_eq_true] at h
      simp only [PyList.hasNonFinite, Bool.or_eq_false_iff]
      exact ⟨PyVal.wellFormedJsonVal_clean v h.1, PyList.wellFormedJsonList_clean vs h.2⟩

theorem PyFields.wellFormedJsonFields_clean :
    ∀ fs : PyFields, fs.wellFormedJson = true → fs.hasNonFinite = false
  | .fnil, _ => rfl
  | .fcons k v fs, h => by
      simp only [PyFields.wellFormedJson, Bool.and_eq_true] at h
      simp only [PyFields.hasNonFinite, Bool.or_eq_false_iff]
      exact ⟨PyVal.wellFormedJsonVal_clean v h.1.2, PyFields.wellFormedJsonFields_clean fs h.2⟩
end

theorem pyDictGet_clean : ∀ (fs : PyFields) (k : String),
    fs.hasNonFinite = false → (pyDictGet fs k).hasNonFinite = false
  | .fnil, _, _ => rfl
  | .fcons k' v fs, k, h => by
      simp only [PyFields.hasNonFinite, Bool.or_eq_false_iff] at h
      unfold pyDictGet PyFields.get?
      split
      · simpa using h.1
      · exact pyDictGet_clean fs k h.2

theorem exceptId_respOk (i r : PyVal) : exceptId (respOk i r) = i := rfl

theorem exceptId_respErr (i : PyVal) (s : String) :
    exceptId (respErr i s) = i := rfl

theorem exceptId_safe_respOk (i r : PyVal) (h : i.hasNonFinite = false) :
    exceptId (safe_json_dumps (respOk i r)) = i := by
  unfold safe_json_dumps
  split
  · simp [respOk, pdict, PyFields.ofList, PyVal.sanitize, PyFields.sanitize,
      exceptId, pyDictGet, PyFields.get?, PyVal.sanitizeVal_of_clean i h]
  · rfl

theorem exceptId_safe_respErr (i : PyVal) (s : String)
    (h : i.hasNonFinite = false) :
    exceptId (safe_json_dumps (respErr i s)) = i := by
  unfold safe_json_dumps
  split
  · simp [respErr, pdict, PyFields.ofList, PyVal.sanitize, PyFields.sanitize,
      exceptId, pyDictGet, PyFields.get?, PyVal.sanitizeVal_of_clean i h]
  · rfl

theorem withId_ok (reqId : PyVal) (body : Except Err PyVal) (r : PyVal)
    (h : withId reqId body = .ok r) : ∃ x, r = respOk reqId x := by
  cases body with
  | ok x =>
      simp only [withId, Except.map] at h
      exact ⟨x, (Except.ok.injEq _ _ ▸ h).symm⟩
  | error e => simp [withId, Except.map] at h


theorem dispatch_ok_shape (m : TorchModel) (method params reqId r : PyVal)
    (h : dispatch m method params reqId = .ok r) :
    (∃ x, r = respOk reqId x) ∨ (∃ s, r = respErr reqId s) := by
  cases method <;> simp only [dispatch] at h <;>
    first
      | (split_ifs at h <;>
          first
            | (exact .inl (withId_ok _ _ _ h))
            | (injection h with h; exact .inl ⟨_, h.symm⟩)
            | (injection h with h; exact .inr ⟨_, h.symm⟩))
      | (injection h with h; exact .inr ⟨_, h.symm⟩)

theorem runLoop_safe_outs_clean (handle : PyVal → Except Err PyVal) :
    ∀ (rb : Option PyVal) (lines : List LineContent),
      ((runLoop handle safe_json_dumps rb lines).outs.all
        (fun o => !o.hasNonFinite)) = true
  | _, [] => rfl
  | rb, l :: ls => by
      cases hc : stepCore handle rb l with
      | crash => simp [runLoop, stepLine, hc, applyWrite]
      | halt o => simp [runLoop, stepLine, hc, applyWrite, safe_json_dumps_clean]
      | next oo rb' =>
          cases oo with
          | none =>
              simpa [runLoop, stepLine, hc, applyWrite]
                using runLoop_safe_outs_clean handle rb' ls
          | some o =>
              simp [runLoop, stepLine, hc, applyWrite, safe_json_dumps_clean,
                runLoop_safe_outs_clean handle rb' ls]


theorem pageRecord_pageNumber (hasT : Bool) (n : Nat) (pg : PdfPage) :
    (pageRecord hasT n pg).pageNumber = n := by
  cases hb : pyStrip pg.rawText == "" && hasT <;> cases ho : pg.ocr <;>
    simp [pageRecord, hb, ho]

theorem pageRecord_method (hasT : Bool) (n : Nat) (pg : PdfPage) :
    (pageRecord hasT n pg).method = "pymupdf"
      ∨ (pageRecord hasT n pg).method = "tesseract"
      ∨ (pageRecord hasT n pg).method = "ocr_failed" := by
  cases hb : pyStrip pg.rawText == "" && hasT <;> cases ho : pg.ocr <;>
    simp [pageRecord, hb, ho]

theorem pageRecord_ocr_failed (hasT : Bool) (n : Nat) (pg : PdfPage) (e : Err)
    (ht : hasT = true) (hs : pyStrip pg.rawText = "") (ho : pg.ocr = .error e) :
    pageRecord hasT n pg = ⟨n, "", "ocr_failed"⟩ := by
  simp [pageRecord, hs, ho, ht]

theorem extractRecordsFrom_length (hasT : Bool) :
    ∀ (n : Nat) (pgs : List PdfPage),
      (extractRecordsFrom hasT n pgs).length = pgs.length
  | _, [] => rfl
  | n, _ :: rest => by
      simp [extractRecordsFrom, extractRecordsFrom_length hasT (n + 1) rest]

theorem extractRecordsFrom_get? (hasT : Bool) :
    ∀ (n i : Nat) (pgs : List PdfPage),
      (extractRecordsFrom hasT n pgs).get? i
        = (pgs.get? i).map (fun pg => pageRecord hasT (n + i) pg)
  | _, _, [] => by simp [extractRecordsFrom]
  | n, 0, pg :: rest => by simp [extractRecordsFrom]
  | n, i + 1, pg :: rest => by
      have hn : n + 1 + i = n + (i + 1) := by omega
      simp only [extractRecordsFrom, List.get?]
      rw [extractRecordsFrom_get? hasT (n + 1) i rest, hn]

/-- Claim C1 (refuted by the code; the spec is the evident intent): the
claim says every malformed input line yields exactly one error response
with `id: null` and the loop continues.  In `main`, the `except` block
evaluates `req.get("id") if isinstance(req, dict) else None`, but `req` is
the local bound by the *previous* successful `json.loads`: when the very
first line is malformed, `req` is unbound and the reference raises
`UnboundLocalError` inside the handler, terminating the process with no
response (first conjunct); when a malformed line follows a valid request,
the stale `req` is a dict and the error response carries the previous
request's id (7), not null (second conjunct). -/
theorem claim1_malformed_line_crash_and_stale_id :
    runServer sampleModel none [LineContent.malformed] = ⟨[], .crash⟩
    ∧ (runServer sampleModel none
         [LineContent.parsed healthReq7, LineContent.malformed]).outs
        = [respOk (pint 7) (healthResult sampleModel),
           respErr (pint 7) jsonParseMsg] :=
  ⟨rfl, rfl⟩

/-- Claim C2, counterexample: `server_mlx.py` serializes responses with
plain `json.dumps(response)` — no `allow_nan=False`, no sanitize fallback —
so when the MLX forward pass returns NaN on an `embed_query` request, the
single line written to stdout contains a non-finite float token. -/
theorem claim2_mlx_nan_reaches_wire :
    ((runServerMlx nanMlxModel none [LineContent.parsed embedQueryReq1]).outs.map
      PyVal.hasNonFinite) = [true] := rfl

/-- Claim C2, amended: in `server.py` (PyTorch backend) the property holds —
every response line passes through `safe_json_dumps`, so no line written to
stdout ever contains a non-finite float token, for every environment, every
starting `req` binding and every stdin prefix.  (The MLX server does not
coerce; see the counterexample.) -/
theorem claim2_torch_wire_always_finite (m : TorchModel) (rb : Option PyVal)
    (lines : List LineContent) :
    ((runServer m rb lines).outs.all (fun o => !o.hasNonFinite)) = true :=
  runLoop_safe_outs_clean (handle_request m) rb lines

/-- Claim C3, counterexample: `embed_queries` is *not* wrapped by the NaN
guard — when the query forward pass returns NaN, the call returns with the
NaN still present (no retry, no `0.0` replacement), contradicting the
claim that both embedding calls are guarded. -/
theorem claim3_embed_queries_unguarded :
    embed_queries nanQueryModel ["q"]
      = pdict [("embeddings", plist [multiVecPy [[PyFloat.nan]]])]
    ∧ (embed_queries nanQueryModel ["q"]).hasNonFinite = true :=
  ⟨rfl, rfl⟩

/-- Claim C3, amended: only `embed_images` is guarded, and the guard
triggers on NaN (not on infinities).  For every environment and path list:
the guarded output never contains NaN; a NaN-free first attempt is returned
as-is (no retry); when the first attempt has NaN the identical call is
retried exactly once and a clean retry is returned as-is; when NaN persists
after the retry every NaN is replaced by `0.0` via `torch.nan_to_num` and
the (degraded) result is returned — the call never fails. -/
theorem claim3_image_nan_guard (m : TorchModel) (paths : List String) :
    tensorHasNaN (embedImagesTensor m paths) = false
    ∧ (tensorHasNaN (m.imageOut paths 0) = false →
        embedImagesTensor m paths = m.imageOut paths 0)
    ∧ (tensorHasNaN (m.imageOut paths 0) = true →
        tensorHasNaN (m.imageOut paths 1) = false →
        embedImagesTensor m paths = m.imageOut paths 1)
    ∧ (tensorHasNaN (m.imageOut paths 0) = true →
        tensorHasNaN (m.imageOut paths 1) = true →
        embedImagesTensor m paths = nanToNumTensor (m.imageOut paths 1)) := by
  refine ⟨?_, ?_, ?_, ?_⟩
  · by_cases h0 : tensorHasNaN (m.imageOut paths 0) = true
    · by_cases h1 : tensorHasNaN (m.imageOut paths 1) = true
      · simp [embedImagesTensor, h0, h1, nanToNumTensor_noNaN]
      · simp [embedImagesTensor, h0, h1]
    · simp [embedImagesTensor, h0]
  · intro h0
    simp [embedImagesTensor, h0]
  · intro h0 h1
    simp [embedImagesTensor, h0, h1]
  · intro h0 h1
    simp [embedImagesTensor, h0, h1]

/-- Concrete instantiation of `claim3_image_nan_guard`: the persistently
NaN environment takes the zero-fill branch and its guarded output is
NaN-free; the well-behaved environment returns the first attempt
untouched. -/
theorem claim3_image_nan_guard_witness :
    tensorHasNaN (embedImagesTensor nanImageModel ["p"]) = false
    ∧ embedImagesTensor nanImageModel ["p"]
        = nanToNumTensor (nanImageModel.imageOut ["p"] 1)
    ∧ embedImagesTensor sampleModel ["p"] = sampleModel.imageOut ["p"] 0 :=
  ⟨(claim3_image_nan_guard nanImageModel ["p"]).1,
   (claim3_image_nan_guard nanImageModel ["p"]).2.2.2 rfl rfl,
   (claim3_image_nan_guard sampleModel ["p"]).2.1 rfl⟩

/-- Claim C4 (confirmed): for every well-formed request object (a parsed
JSON dict: finite floats, distinct keys), one loop iteration writes exactly
one response line, and that response's `id` equals the request's `id` —
`None`, echoed as `null`, when the key is absent or stored as null.  This
covers every handler outcome: success responses, handler exceptions caught
at the loop boundary, unknown methods, and the shutdown response. -/
theorem claim4_one_response_echoes_id (m : TorchModel) (rb : Option PyVal)
    (fs : PyFields) (h : (PyVal.dictVal fs).wellFormedJson = true) :
    ∃ o, stepWritten (stepLine (handle_request m) safe_json_dumps rb
          (LineContent.parsed (.dictVal fs))) = [o]
      ∧ exceptId o = pyDictGet fs "id" := by
  have hid : (pyDictGet fs "id").hasNonFinite = false :=
    pyDictGet_clean fs "id" (PyFields.wellFormedJsonFields_clean fs h)
  cases hh : handle_request m (.dictVal fs) with
  | ok resp =>
      have hshape := dispatch_ok_shape m (pyDictGet fs "method")
        ((fs.get? "params").getD (pdict [])) (pyDictGet fs "id") resp hh
      refine ⟨safe_json_dumps resp, ?_, ?_⟩
      · by_cases hsd : isShutdownVal (pyDictGet fs "method") = true
        · simp [stepLine, stepCore, pyGet, hsd, hh, applyWrite, stepWritten]
        · simp [stepLine, stepCore, pyGet, hsd, hh, applyWrite, stepWritten]
      · rcases hshape with ⟨x, rfl⟩ | ⟨s, rfl⟩
        · exact exceptId_safe_respOk _ _ hid
        · exact exceptId_safe_respErr _ _ hid
  | error e =>
      refine ⟨safe_json_dumps (respErr (pyDictGet fs "id") e.message), ?_, ?_⟩
      · by_cases hsd : isShutdownVal (pyDictGet fs "method") = true
        · simp [stepLine, stepCore, pyGet, hsd, hh, applyWrite, stepWritten, exceptId]
        · simp [stepLine, stepCore, pyGet, hsd, hh, applyWrite, stepWritten, exceptId]
      · exact exceptId_safe_respErr _ _ hid

/-- Concrete instantiation of `claim4_one_response_echoes_id` at the
request `{"id": 7, "method": "health"}`. -/
theorem claim4_one_response_echoes_id_witness :
    (PyVal.dictVal healthFields7).wellFormedJson = true
    ∧ ∃ o, stepWritten (stepLine (handle_request sampleModel) safe_json_dumps none
          (LineContent.parsed (.dictVal healthFields7))) = [o]
        ∧ exceptId o = pyDictGet healthFields7 "id" :=
  ⟨rfl, claim4_one_response_echoes_id sampleModel none healthFields7 rfl⟩

/-- Claim C5 (confirmed): under the declared forward-pass contract (one
output row per batch input) and with every image opening successfully,
`embed_images` succeeds; its `embeddings` list is exactly the guarded
batch rows (so its length equals the input length) and `num_vectors` is
the parallel list of per-row vector counts, entry by entry; and the
`embed_queries` result is one embedding per input text, with equal
length. -/
theorem claim5_batch_lengths (m : TorchModel) (paths texts : List String)
    (hI : ∀ k, (m.imageOut paths k).length = paths.length)
    (hQ : (m.queryOut texts).length = texts.length)
    (hO : openImages m paths = .ok ()) :
    embed_images m paths = .ok (imagesResultPy (embedImagesTensor m paths))
    ∧ (resultsAndCounts (embedImagesTensor m paths)).1 = embedImagesTensor m paths
    ∧ (embedImagesTensor m paths).length = paths.length
    ∧ (resultsAndCounts (embedImagesTensor m paths)).2
        = (resultsAndCounts (embedImagesTensor m paths)).1.map List.length
    ∧ embed_queries m texts
        = pdict [("embeddings", plist ((m.queryOut texts).map multiVecPy))]
    ∧ ((m.queryOut texts).map multiVecPy).length = texts.length := by
  refine ⟨?_, resultsAndCounts_fst _, ?_, ?_, rfl, ?_⟩
  · unfold embed_images
    rw [hO]
    rfl
  · by_cases h0 : tensorHasNaN (m.imageOut paths 0) = true
    · by_cases h1 : tensorHasNaN (m.imageOut paths 1) = true
      · simp [embedImagesTensor, h0, h1, nanToNumTensor, hI 1]
      · simp [embedImagesTensor, h0, h1, hI 1]
    · simp [embedImagesTensor, h0, hI 0]
  · rw [resultsAndCounts_snd, resultsAndCounts_fst]
  · simp [hQ]

/-- Concrete instantiation of `claim5_batch_lengths` on a one-image batch
in the well-behaved environment. -/
theorem claim5_batch_lengths_witness :
    (embedImagesTensor sampleModel ["a"]).length = (["a"] : List String).length
    ∧ (resultsAndCounts (embedImagesTensor sampleModel ["a"])).2
        = (resultsAndCounts (embedImagesTensor sampleModel ["a"])).1.map List.length :=
  ⟨(claim5_batch_lengths sampleModel ["a"] ["q"] (fun _ => rfl) rfl rfl).2.2.1,
   (claim5_batch_lengths sampleModel ["a"] ["q"] (fun _ => rfl) rfl rfl).2.2.2.1⟩

/-- Claim C6 (confirmed): for every text `T`, when the forward pass on the
singleton batch `[T]` returns one row (the declared contract), the
`embed_query` branch — `embed_queries([params["text"]])` followed by
`result["embeddings"][0]` — returns exactly the single element of the
`embed_queries({texts: [T]})` embeddings list. -/
theorem claim6_embed_query_delegates (m : TorchModel) (T : String)
    (h : (m.queryOut [T]).length = 1) :
    ∃ e, m.queryOut [T] = [e]
      ∧ embedQueryResult m T = .ok (pdict [("embedding", multiVecPy e)])
      ∧ embed_queries m [T] = pdict [("embeddings", plist [multiVecPy e])] := by
  cases hq : m.queryOut [T] with
  | nil => rw [hq] at h; simp at h
  | cons e rest =>
      rw [hq] at h
      have hr : rest = [] := by simpa using h
      subst hr
      exact ⟨e, rfl, by simp [embedQueryResult, hq], by simp [embed_queries, hq]⟩

/-- Concrete instantiation of `claim6_embed_query_delegates` at
`T = "q"` in the well-behaved environment. -/
theorem claim6_embed_query_delegates_witness :
    ∃ e, sampleModel.queryOut ["q"] = [e]
      ∧ embedQueryResult sampleModel "q" = .ok (pdict [("embedding", multiVecPy e)])
      ∧ embed_queries sampleModel ["q"] = pdict [("embeddings", plist [multiVecPy e])] :=
  claim6_embed_query_delegates sampleModel "q" rfl

/-- Claim C7, counterexample: an `embed_images` request whose `paths` value
is the empty list is *not* rejected with a parameter error — the dispatcher
has no emptiness check, the empty batch is forwarded to the backend, and
under the backend's declared contract (one output row per input, so an
empty batch yields an empty result) the server answers with a *success*
response (a `result`, no `error`). -/
theorem claim7_empty_paths_success :
    runServer sampleModel none [LineContent.parsed (emptyPathsReq (pint 9))]
      = ⟨[respOk (pint 9)
            (pdict [("embeddings", plist []), ("num_vectors", plist [])])],
         .eof⟩ := rfl

/-- Claim C7, amended: a *missing* `paths` key raises `KeyError` inside the
dispatch, which the loop boundary converts into exactly one error response
(echoing the request id) before continuing with the remaining lines; an
*empty* `paths` list is not validated — it is forwarded to the backend and
produces exactly one success response, and the loop likewise continues.
In both cases the process does not crash. -/
theorem claim7_paths_param_errors (m : TorchModel) (rb : Option PyVal)
    (rest : List LineContent) (idv : PyVal) (hid : idv.hasNonFinite = false) :
    runServer m rb (LineContent.parsed (missingPathsReq idv) :: rest)
      = ⟨respErr idv (Err.message (.keyError "paths"))
           :: (runServer m (some (missingPathsReq idv)) rest).outs,
         (runServer m (some (missingPathsReq idv)) rest).term⟩
    ∧ runServer m rb (LineContent.parsed (emptyPathsReq idv) :: rest)
      = ⟨safe_json_dumps (respOk idv (imagesResultPy (embedImagesTensor m [])))
           :: (runServer m (some (emptyPathsReq idv)) rest).outs,
         (runServer m (some (emptyPathsReq idv)) rest).term⟩ := by
  constructor
  · have hclean : (respErr idv (Err.message (Err.keyError "paths"))).hasNonFinite = false := by
      simp [respErr, pstr, pdict, PyFields.ofList, PyVal.hasNonFinite,
        PyFields.hasNonFinite, hid]
    have hstep : stepCore (handle_request m) rb (LineContent.parsed (missingPathsReq idv))
        = .next (some (respErr idv (Err.message (.keyError "paths"))))
            (some (missingPathsReq idv)) := rfl
    simp [runServer, runLoop, stepLine, hstep, applyWrite,
      safe_json_dumps_of_clean _ hclean]
  · have hstep : stepCore (handle_request m) rb (LineContent.parsed (emptyPathsReq idv))
        = .next (some (respOk idv (imagesResultPy (embedImagesTensor m []))))
            (some (emptyPathsReq idv)) := rfl
    simp [runServer, runLoop, stepLine, hstep, applyWrite]

/-- Concrete instantiation of `claim7_paths_param_errors` with id 4 and an
empty remaining stdin. -/
theorem claim7_paths_param_errors_witness :
    runServer sampleModel none [LineContent.parsed (missingPathsReq (pint 4))]
      = ⟨respErr (pint 4) (Err.message (.keyError "paths"))
           :: (runServer sampleModel (some (missingPathsReq (pint 4))) []).outs,
         (runServer sampleModel (some (missingPathsReq (pint 4))) []).term⟩
    ∧ runServer sampleModel none [LineContent.parsed (emptyPathsReq (pint 4))]
      = ⟨safe_json_dumps (respOk (pint 4)
            (imagesResultPy (embedImagesTensor sampleModel [])))
           :: (runServer sampleModel (some (emptyPathsReq (pint 4))) []).outs,
         (runServer sampleModel (some (emptyPathsReq (pint 4))) []).term⟩ :=
  claim7_paths_param_errors sampleModel none [] (pint 4) rfl

/-- Claim C8, counterexample: the method strings the code records are
`"pymupdf"`, `"tesseract"` and `"ocr_failed"` — a page with embedded text
gets method `"pymupdf"`, which is not in the claimed set
`{embedded-text, ocr, ocr-failed}`. -/
theorem claim8_method_names_differ :
    pageRecord true 0 ⟨"hello", .ok "x"⟩ = ⟨0, "hello", "pymupdf"⟩
    ∧ "pymupdf" ∉ (["embedded-text", "ocr", "ocr-failed"] : List String) :=
  ⟨rfl, by decide⟩

/-- Claim C8, amended (with the actual method strings): for every readable
PDF, `extract_text` succeeds and returns one record per page; record `i`
is the page-`i` record with `page_number = i` (0-based, page order); every
record's method is `"pymupdf"`, `"tesseract"` or `"ocr_failed"`; and when
OCR raises on an image-only page the record is
`{page_number, text: "", method: "ocr_failed"}` — the failure is recorded,
never propagated, so one page's OCR error cannot fail the request. -/
theorem claim8_extract_text_records (m : TorchModel) (pdfPath : String)
    (pgs : List PdfPage) (hpdf : m.openPdf pdfPath = .ok pgs) :
    extract_text m pdfPath
      = .ok (pdict [("pages",
            plist ((extractRecordsFrom m.hasTesseract 0 pgs).map pageRecPy)),
          ("has_tesseract", .boolean m.hasTesseract)])
    ∧ (extractRecordsFrom m.hasTesseract 0 pgs).length = pgs.length
    ∧ (∀ i, (extractRecordsFrom m.hasTesseract 0 pgs).get? i
          = (pgs.get? i).map (fun pg => pageRecord m.hasTesseract i pg))
    ∧ (∀ n pg, (pageRecord m.hasTesseract n pg).pageNumber = n)
    ∧ (∀ r ∈ extractRecordsFrom m.hasTesseract 0 pgs,
        r.method = "pymupdf" ∨ r.method = "tesseract" ∨ r.method = "ocr_failed")
    ∧ (∀ n pg e, m.hasTesseract = true → pyStrip pg.rawText = "" →
        pg.ocr = .error e →
        pageRecord m.hasTesseract n pg = ⟨n, "", "ocr_failed"⟩) := by
  refine ⟨?_, extractRecordsFrom_length _ _ _, ?_, ?_, ?_, ?_⟩
  · simp [extract_text, hpdf]
  · intro i
    simpa using extractRecordsFrom_get? m.hasTesseract 0 i pgs
  · intro n pg
    exact pageRecord_pageNumber _ n pg
  · intro r hr
    obtain ⟨i, hi⟩ := List.mem_iff_get?.mp hr
    rw [extractRecordsFrom_get? m.hasTesseract 0 i pgs] at hi
    cases hg : pgs.get? i with
    | none => rw [hg] at hi; simp at hi
    | some pg =>
        rw [hg] at hi
        simp only [Option.map_some'] at hi
        obtain rfl := Option.some.inj hi
        exact pageRecord_method _ _ _
  · intro n pg e ht hs ho
    exact pageRecord_ocr_failed _ n pg e ht hs ho

/-- Concrete instantiation of `claim8_extract_text_records` on the
two-page PDF whose second page's OCR raises. -/
theorem claim8_extract_text_records_witness :
    (extractRecordsFrom pdfModel.hasTesseract 0 pdfPages).length = pdfPages.length
    ∧ pageRecord pdfModel.hasTesseract 1 ⟨"", .error .indexError⟩
        = ⟨1, "", "ocr_failed"⟩ :=
  ⟨(claim8_extract_text_records pdfModel "doc.pdf" pdfPages rfl).2.1,
   (claim8_extract_text_records pdfModel "doc.pdf" pdfPages rfl).2.2.2.2.2
     1 ⟨"", .error .indexError⟩ .indexError rfl rfl rfl⟩

/-- Claim C9 (confirmed): when a parsed request dict has method
`"shutdown"`, the loop writes the `{"status": "shutting_down"}` response
(with the request's id) and then `break`s: the run's entire output is that
one line, the loop terminates in the shutdown state, and the result is
independent of every line that may follow on stdin — no further input is
read. -/
theorem claim9_shutdown_responds_then_stops (m : TorchModel) (rb : Option PyVal)
    (fs : PyFields) (rest : List LineContent)
    (h : pyDictGet fs "method" = pstr "shutdown") :
    runServer m rb (LineContent.parsed (.dictVal fs) :: rest)
      = ⟨[safe_json_dumps (respOk (pyDictGet fs "id")
            (pdict [("status", pstr "shutting_down")]))], .shutdown⟩ := by
  have hh : handle_request m (.dictVal fs)
      = .ok (respOk (pyDictGet fs "id")
          (pdict [("status", pstr "shutting_down")])) := by
    simp [handle_request, pyGet, pyGetD, h, dispatch, Bind.bind, Except.bind, pstr]
  have hsd : isShutdownVal (pyDictGet fs "method") = true := by
    rw [h]; rfl
  have hstep : stepCore (handle_request m) rb (LineContent.parsed (.dictVal fs))
      = .halt (respOk (pyDictGet fs "id")
          (pdict [("status", pstr "shutting_down")])) := by
    simp [stepCore, pyGet, hsd, hh]
  simp [runServer, runLoop, stepLine, hstep, applyWrite]

/-- Concrete instantiation of `claim9_shutdown_responds_then_stops`:
`{"id": 3, "method": "shutdown"}` followed by a further request; the
response is the shutdown response alone and the trailing line is never
processed. -/
theorem claim9_shutdown_responds_then_stops_witness :
    runServer sampleModel none [LineContent.parsed (.dictVal shutdownFields3),
        LineContent.parsed healthReq7]
      = ⟨[safe_json_dumps (respOk (pyDictGet shutdownFields3 "id")
            (pdict [("status", pstr "shutting_down")]))], .shutdown⟩ :=
  claim9_shutdown_responds_then_stops sampleModel none shutdownFields3
    [LineContent.parsed healthReq7] rfl

/-- Claim C10 (confirmed): a line that parses to a non-dict JSON value
(array, number, string, boolean or null) raises `AttributeError` at
`req.get("method")`; the loop's `except` block — with `req` now bound to
the non-dict value, so `isinstance(req, dict)` is false — writes exactly
one error response with `id: null` and the `error` message set, and then
continues with the remaining lines. -/
theorem claim10_nondict_line_error_null_id (m : TorchModel) (rb : Option PyVal)
    (v : PyVal) (rest : List LineContent) (h : v.isDict = false) :
    runServer m rb (LineContent.parsed v :: rest)
      = ⟨respErr .null (Err.message (.attributeError "object has no attribute get"))
           :: (runServer m (some v) rest).outs,
         (runServer m (some v) rest).term⟩ := by
  cases v <;> first
    | rfl
    | (simp [PyVal.isDict] at h)

/-- Concrete instantiation of `claim10_nondict_line_error_null_id` at the
JSON-array line `[1, 2]`. -/
theorem claim10_nondict_line_error_null_id_witness :
    runServer sampleModel none [LineContent.parsed (plist [pint 1, pint 2])]
      = ⟨respErr .null (Err.message (.attributeError "object has no attribute get"))
           :: (runServer sampleModel (some (plist [pint 1, pint 2])) []).outs,
         (runServer sampleModel (some (plist [pint 1, pint 2])) []).term⟩ :=
  claim10_nondict_line_error_null_id sampleModel none (plist [pint 1, pint 2]) [] rfl
